import Mathlib

/-!
# DPA::SYS::process — a shallow embedding

Lean model of `src/src/process.cpp` (class `DPA::SYS::process`) and of the part of
`src/src/system_error.cpp` it relies on.

Conventions of the embedding

* C `int` values (file descriptors, pids, signal numbers, wait statuses) are `Int`.
  The only arithmetic the code performs on them is `fd++` / `maxfd+1` inside the sweep
  loops of `move_close_fds`; the model does not wrap these (a target equal to `INT_MAX`,
  where `maxfd+1` overflows, is outside the model).
* `errno` values are `Int` as well.
* Results of system calls that the code cannot determine by itself (`pipe`, `fork`,
  `read`, `kill`, `waitpid`, ...) are inputs of the model.
* The descriptor table of the calling process is a function from descriptors to the open
  file description they refer to (`none` = closed).
-/

namespace DPA.SYS

/-! ## errno values and signal numbers (Linux, `<errno.h>` / `<signal.h>`) -/

def ENOENT : Int := 2
def ESRCH : Int := 3
def EINTR : Int := 4
def EBADF : Int := 9
def ENOMEM : Int := 12
def EBUSY : Int := 16
def EINVAL : Int := 22
def EMFILE : Int := 24

def SIGQUIT : Int := 3
def SIGKILL : Int := 9
def SIGTERM : Int := 15
def SIGCONT : Int := 18
def SIGSTOP : Int := 19

/-! ## Descriptor table and the system calls used by `move_close_fds` -/

/-- Identity of an open file description. -/
abbrev File := Nat

/-- Descriptor table of a process: `t fd = some f` when `fd` is open on `f`. -/
abbrev FdTable := Int → Option File

/-- The descriptors `lo, lo+1, ..., hi-1` in increasing order (a C `for` loop over `int`). -/
def fdRange (lo hi : Int) : List Int :=
  (List.range (hi - lo).toNat).map (fun (k : Nat) => lo + (k : Int))

/-- System call `close(fd)`: afterwards `fd` is closed. The code never looks at the result. -/
def close (t : FdTable) (fd : Int) : FdTable :=
  fun x => if x = fd then none else t x

/-- Lowest descriptor in `[0, openMax)` that is not open. -/
def lowestFree (openMax : Int) (t : FdTable) : Option Int :=
  (fdRange 0 openMax).find? (fun fd => (t fd).isNone)

/-- System call `dup(fd)`: `EBADF` when `fd` is not open, `EMFILE` when the table is full,
otherwise the lowest free descriptor now refers to the file of `fd`. -/
def dup (openMax : Int) (t : FdTable) (fd : Int) : Except Int (FdTable × Int) :=
  match t fd with
  | none => .error EBADF
  | some f =>
    match lowestFree openMax t with
    | none => .error EMFILE
    | some n => .ok (fun x => if x = n then some f else t x, n)

/-- System call `dup2(oldfd, newfd)`: `EBADF` when `oldfd` is not open or `newfd` is out of
range; otherwise `newfd` refers to the file of `oldfd` (whatever was open on `newfd` is
closed; nothing happens when both are equal). -/
def dup2 (openMax : Int) (t : FdTable) (oldfd newfd : Int) : Except Int FdTable :=
  match t oldfd with
  | none => .error EBADF
  | some f =>
    if newfd < 0 ∨ openMax ≤ newfd then .error EBADF
    else .ok (fun x => if x = newfd then some f else t x)

/-- A mapping entry `{source, target}` (`fdm[i][0]`, `fdm[i][1]`). -/
abbrev FdPair := Int × Int

/-- Lines 356-358: the merged array `fdm`: the caller's entries followed by one entry
`{k, k}` for every keep descriptor. -/
def mergeKeep (fdmapv : List FdPair) (keepfdv : List Int) : List FdPair :=
  fdmapv ++ keepfdv.map (fun k => (k, k))

/-- Lines 373-378: the inner loop over the entries `j > i` (here: the entries after the
current one). Whenever `fdm[j][0] == swapout` it sets `used` and stores `swapout` into
`fdm[j][0]`. Returns `used` and the entries after the loop. -/
def redistribute (swapout : Int) : List FdPair → Bool × List FdPair
  | [] => (false, [])
  | e :: rest =>
    let r := redistribute swapout rest
    if e.1 = swapout then (true, (swapout, e.2) :: r.2) else (r.1, e :: r.2)

/-- Lines 366-381: `swapout = dup(target)`; a failure with `EMFILE` is thrown, any other
failure leaves `swapout == -1` and is skipped; on success the duplicate is offered to the
later entries and closed when none of them took it. Returns the table and the later
entries. (`dup` as modelled never fails with `EINTR`/`EBUSY`, so the retry loop runs
once.) -/
def swapOut (openMax : Int) (t : FdTable) (target : Int) (later : List FdPair) :
    Except Int (FdTable × List FdPair) :=
  match dup openMax t target with
  | .error e => if e = EMFILE then .error EMFILE else .ok (t, later)
  | .ok (t1, swapout) =>
    let r := redistribute swapout later
    .ok (if r.1 then t1 else close t1 swapout, r.2)

/-- Lines 382-389: `close(target)`, then `dup2(source, target)`; only `EMFILE` is
thrown. -/
def forceTarget (openMax : Int) (t : FdTable) (source target : Int) : Except Int FdTable :=
  let t1 := close t target
  match dup2 openMax t1 source target with
  | .error e => if e = EMFILE then .error EMFILE else .ok t1
  | .ok t2 => .ok t2

/-- Lines 363-393: the loop `for( i=0; i<fdmapc; i++ )`, written over the entries still to
be processed; `maxfd` is threaded through. -/
def moveLoop (openMax : Int) : Nat → FdTable → Int → List FdPair → Except Int (FdTable × Int)
  | 0, t, maxfd, _ => .ok (t, maxfd)
  | _ + 1, t, maxfd, [] => .ok (t, maxfd)
  | n + 1, t, maxfd, e :: later =>
    let maxfd1 := if maxfd < e.2 then e.2 else maxfd
    if 0 ≤ e.1 ∧ e.1 ≠ e.2 then
      match swapOut openMax t e.2 later with
      | .error err => .error err
      | .ok (t1, later1) =>
        match forceTarget openMax t1 e.1 e.2 with
        | .error err => .error err
        | .ok t2 => moveLoop openMax n t2 maxfd1 later1
    else moveLoop openMax n t maxfd1 later

/-- Lines 398-404: `for( fd=0; fd<=maxfd; fd++ )`: close `fd` unless it is the target of
an entry of `fdm`. -/
def sweepLow (fdm : List FdPair) (t : FdTable) (maxfd : Int) : FdTable :=
  (fdRange 0 (maxfd + 1)).foldl
    (fun acc fd => if fdm.any (fun e => e.2 == fd) then acc else close acc fd) t

/-- Lines 396-397 and 343-345: `for( fd=lo; fd<openfdmax; fd++ ) close(fd);`. -/
def closeFrom (t : FdTable) (lo openMax : Int) : FdTable :=
  (fdRange lo openMax).foldl close t

/-- `process::move_close_fds( fdmapc, fdmapv, keepfdc, keepfdv )`, lines 336-411.
`openMax` is `sysconf(_SC_OPEN_MAX)`, `mallocOk` tells whether `std::malloc` succeeded.
The result is the descriptor table on normal return, or the `errno` of the thrown
`SystemError`. -/
def process.move_close_fds (openMax : Int) (mallocOk : Bool) (t : FdTable)
    (fdmapv : List FdPair) (keepfdv : List Int) : Except Int FdTable :=
  if fdmapv.length + keepfdv.length = 0 then .ok (closeFrom t 0 openMax)
  else if !mallocOk then .error ENOMEM
  else
    let fdm := mergeKeep fdmapv keepfdv
    match moveLoop openMax fdm.length t 0 fdm with
    | .error e => .error e
    | .ok (t1, maxfd) => .ok (sweepLow fdm (closeFrom t1 (maxfd + 1) openMax) maxfd)

/-- Descriptor table of a child right after `close(errorfds[0])`: 0..4 open on the files
100..104, the error pipe at 5 (read end, already closed) and 6 (write end, file 106). -/
def swapTable : FdTable := fun fd =>
  if fd = 0 then some 100 else if fd = 1 then some 101 else if fd = 2 then some 102
  else if fd = 3 then some 103 else if fd = 4 then some 104 else if fd = 6 then some 106
  else none

/-- Reads a descriptor off a result of `move_close_fds`. -/
def fdAfter (r : Except Int FdTable) (fd : Int) : Option (Option File) :=
  match r with
  | .error _ => none
  | .ok t => some (t fd)

/-! ## The error pipe: `snprintf "%x"` in the child, `sscanf "%x"` in the parent -/

/-- The terminating byte of a C string. -/
def NUL : Char := Char.ofNat 0

/-- `sizeof(strnum)` = `sizeof(int)*2+1` with a 4-byte `int`. -/
def strnumSize : Nat := 9

/-- `char strnum[sizeof(int)*2+1] = {0};` -/
def strnumInit : List Char := List.replicate strnumSize NUL

/-- An `int` converted to `unsigned int` (what `%x` prints, what `sscanf` stores). -/
def toUnsigned (e : Int) : Nat := (e % 4294967296).toNat

/-- An `unsigned int` converted to `int` (the argument of `SystemError(int)`). -/
def toSigned (u : Nat) : Int :=
  if u % 4294967296 < 2147483648 then ((u % 4294967296 : Nat) : Int)
  else ((u % 4294967296 : Nat) : Int) - 4294967296

/-- Hexadecimal digits of `n`, least significant first, at most `fuel` of them (an
`unsigned int` has at most 8). -/
def hexDigitsRev : Nat → Nat → List Nat
  | 0, _ => []
  | f + 1, n => if n < 16 then [n] else (n % 16) :: hexDigitsRev f (n / 16)

/-- The character `%x` prints for a digit value. -/
def hexChar (d : Nat) : Char :=
  if d < 10 then Char.ofNat (48 + d) else Char.ofNat (87 + d)

/-- Text of the conversion `%x` for an `unsigned int`. -/
def fmt_x (u : Nat) : List Char :=
  (hexDigitsRev 8 u).reverse.map hexChar

/-- The call `std::snprintf(buf, size, "%x", e)`: stores at most `size-1` characters of the
text and a terminating NUL at the front of `buf`, returns the length of the whole text. -/
def snprintf_x (buf : List Char) (size : Nat) (e : Int) : List Char × Nat :=
  let text := fmt_x (toUnsigned e)
  let stored := text.take (size - 1) ++ [NUL]
  (stored ++ buf.drop stored.length, text.length)

/-- Lines 200-201 (and 316-317): bytes the child writes to the error pipe for the error
number of the caught `SystemError`: `count = snprintf(strnum, sizeof(strnum), "%x", e)`,
then `write(errorfds[1], strnum, count)`. -/
def childRelay (e : Int) : List Char :=
  let r := snprintf_x strnumInit strnumSize e
  r.1.take r.2

/-- Value of a hexadecimal digit character, `none` for any other character. -/
def hexVal (c : Char) : Option Nat :=
  if 48 ≤ c.toNat ∧ c.toNat ≤ 57 then some (c.toNat - 48)
  else if 97 ≤ c.toNat ∧ c.toNat ≤ 102 then some (c.toNat - 87)
  else if 65 ≤ c.toNat ∧ c.toNat ≤ 70 then some (c.toNat - 55)
  else none

/-- Reads hexadecimal digits as long as there are some, accumulating the value. -/
def scanHex : Nat → List Char → Nat
  | acc, [] => acc
  | acc, c :: cs =>
    match hexVal c with
    | some d => scanHex (acc * 16 + d) cs
    | none => acc

/-- C `isspace` in the "C" locale. -/
def isSpace (c : Char) : Bool :=
  c.toNat = 32 || (9 ≤ c.toNat && c.toNat ≤ 13)

/-- Whether the text starts with a hexadecimal digit. -/
def startsWithHex : List Char → Bool
  | [] => false
  | c :: _ => (hexVal c).isSome

/-- Drops a `0x` / `0X` that is followed by a hexadecimal digit. -/
def dropHexPrefix : List Char → List Char
  | c0 :: c1 :: rest =>
    if c0.toNat = 48 ∧ (c1.toNat = 120 ∨ c1.toNat = 88) ∧ startsWithHex rest then rest
    else c0 :: c1 :: rest
  | s => s

/-- The call `std::sscanf(strnum, "%x", &error)` on the C string held in `strnum`: leading
white space, an optional sign, an optional `0x`, then hexadecimal digits; the value is
stored as `unsigned int`. `none` when no digit is found (nothing is stored then). -/
def sscanf_x (strnum : List Char) : Option Nat :=
  let s0 := strnum.takeWhile (fun c => c != NUL)
  let s1 := s0.dropWhile isSpace
  let neg := s1.head?.any (fun c => c.toNat = 45)
  let s2 := if s1.head?.any (fun c => c.toNat = 45 ∨ c.toNat = 43) then s1.tail else s1
  let s3 := dropHexPrefix s2
  if startsWithHex s3 then
    let v := scanHex 0 s3 % 4294967296
    some (if neg then (4294967296 - v) % 4294967296 else v)
  else none

/-- Lines 132, 179: the parent's `strnum` (zero-initialised) after `read` stored `bytes`
at its front. -/
def strnumAfterRead (bytes : List Char) : List Char :=
  bytes ++ strnumInit.drop bytes.length

/-- Lines 188-192: the error number carried by the `SystemError` the parent throws after
reading `bytes` (`ret != 0`). `uninit` is the value of the uninitialised local `error`,
which is what gets thrown when `sscanf` stores nothing. -/
def parentErrorNumber (uninit : Nat) (bytes : List Char) : Int :=
  toSigned ((sscanf_x (strnumAfterRead bytes)).getD uninit)

/-! ## Failures -/

/-- The two kinds of exception the code throws: `std::invalid_argument` with its message
and `SystemError` with its error number. -/
inductive Failure where
  | invalid_argument (what : String)
  | SystemError (number : Int)
  deriving DecidableEq, Repr

deriving instance DecidableEq for Except

/-- Whether a failure is a `std::invalid_argument`. -/
def Failure.isInvalidArgument : Failure → Bool
  | .invalid_argument _ => true
  | .SystemError _ => false

/-! ## Process objects, the registry `children`, the reaper -/

/-- Address of a `process` object (what a `procptr` points to). -/
abbrev Ptr := Nat

/-- The data members of `class process` (`ptr` is a construction-time helper and is left
out). `custom_exit_handler = none` is the null function pointer; a handler is identified
by a number. -/
structure process where
  pid : Int
  retcode : Int
  custom_exit_handler : Option Nat
  custom_exit_handler_param : Nat
  deriving DecidableEq, Repr

/-- System calls of the parent side of `run` / `fork` that the model records. -/
inductive Sys where
  | sigaction
  | pipe
  | fcntl
  | fork
  | read
  deriving DecidableEq, Repr

/-- Process-wide state: the globals `children` and `initialized`, the objects on the heap,
the next address `new` hands out, the addresses of the objects whose storage has been
released, the calls made to custom exit handlers (handler, `this`, parameter), the
recorded system calls, and a flag raised when the code performs an operation whose
behaviour C++ leaves undefined (reading through the iterator of the erased last element,
`pop_back` on an empty vector, releasing the storage of an object a second time); nothing
is claimed about the objects once the flag is up. -/
structure World where
  children : List Ptr
  initialized : Bool
  heap : Ptr → process
  brk : Ptr
  freed : List Ptr
  exitCalls : List (Nat × Ptr × Nat)
  syscalls : List Sys
  undefined : Bool

/-- Lines 436-441, `process::child_exit_handler( retcode )` on the object at `this`. -/
def process.child_exit_handler (w : World) (this : Ptr) (retcode : Int) : World :=
  let o := w.heap this
  let o1 : process := { o with retcode := retcode, pid := 0 }
  let w1 : World := { w with heap := fun p => if p = this then o1 else w.heap p }
  match o.custom_exit_handler with
  | none => w1
  | some handler =>
    { w1 with exitCalls := w1.exitCalls ++ [(handler, this, o.custom_exit_handler_param)] }

/-- Lines 418-434, `process::waitpid_helper( p, wstate, flags )`. `res` is what the call
`waitpid( p, &retcode, flags )` produced: the returned pid and the stored status (the
callers pass `wstate = 0`). `std::find_if` yields the first element whose pid matches;
`children.erase(it)` shifts the later elements one slot down, so the `*it` evaluated
afterwards reads slot `i` of the shrunk vector: the element that followed the erased
one, or, when the erased element was the last, a slot past the end. -/
def process.waitpid_helper (w : World) (res : Int × Int) : World × Int :=
  let pid := res.1
  if 0 < pid then
    match w.children.findIdx? (fun p => (w.heap p).pid == pid) with
    | none => (w, pid)
    | some i =>
      let w1 : World := { w with children := w.children.eraseIdx i }
      match w1.children.get? i with
      | some q => (process.child_exit_handler w1 q res.2, pid)
      | none => ({ w1 with undefined := true }, pid)
  else (w, pid)

/-- Lines 413-416, `process::sigchild_handler`: calls `waitpid_helper( -1, 0, WNOHANG )`
until it returns a value `<= 0`. `results` lists what the successive `waitpid` calls
produce; when the list is used up the next call reports that no child is ready. -/
def process.sigchild_handler (w : World) : List (Int × Int) → World
  | [] => w
  | r :: rest =>
    let s := process.waitpid_helper w r
    if 0 < s.2 then process.sigchild_handler s.1 rest else s.1

/-- Lines 443-445, `process::isRunning`. -/
def process.isRunning (this : process) : Bool :=
  !!(this.pid != 0)

/-! ## Sending signals -/

/-- Answer of the system call `::kill(pid, sig)`: `none` on success, else `errno`. -/
abbrev KillCall := Int → Int → Option Int

/-- What a signalling method did: how it ended and the `::kill(pid, sig)` calls it made. -/
abbrev SignalResult := Except Failure Unit × List (Int × Int)

/-- Whether a signalling method raised `std::invalid_argument` without having made any
`::kill` call. -/
def rejectedUnsent (r : SignalResult) : Bool :=
  match r.1 with
  | .error f => f.isInvalidArgument && r.2.isEmpty
  | .ok _ => false

/-- Lines 452-460, `process::kill( force )`. -/
def process.kill (osKill : KillCall) (this : process) (force : Bool) : SignalResult :=
  let pid := this.pid
  if pid = 0 then (.ok (), [])
  else
    let sig := if force then SIGTERM else SIGKILL
    match osKill pid sig with
    | none => (.ok (), [(pid, sig)])
    | some e =>
      if e ≠ ESRCH then (.error (.SystemError e), [(pid, sig)]) else (.ok (), [(pid, sig)])

/-- Lines 462-470, `process::quit()`. -/
def process.quit (osKill : KillCall) (this : process) : SignalResult :=
  let pid := this.pid
  if pid = 0 then (.ok (), [])
  else
    match osKill pid SIGQUIT with
    | none => (.ok (), [(pid, SIGQUIT)])
    | some e =>
      if e ≠ ESRCH then (.error (.SystemError e), [(pid, SIGQUIT)])
      else (.ok (), [(pid, SIGQUIT)])

/-- Lines 472-492, `process::signal( signal )`. -/
def process.signal (osKill : KillCall) (this : process) (signal : Int) : SignalResult :=
  if signal = SIGKILL then
    (.error (.invalid_argument "Use process::kill() for SIGTERM"), [])
  else if signal = SIGTERM then
    (.error (.invalid_argument "Use process::kill(true) for SIGKILL"), [])
  else if signal = SIGSTOP then
    (.error (.invalid_argument "Use process::quit() for SIGQUIT"), [])
  else
    let pid := this.pid
    if pid = 0 then (.error (.SystemError ESRCH), [])
    else
      match osKill pid signal with
      | none => (.ok (), [(pid, signal)])
      | some e =>
        if e = EINVAL then
          (.error (.invalid_argument "An invalid signal was specified"), [(pid, signal)])
        else (.error (.SystemError e), [(pid, signal)])

/-- Lines 494-496, `process::pause()`. -/
def process.pause (osKill : KillCall) (this : process) : SignalResult :=
  process.signal osKill this SIGSTOP

/-- Lines 498-500, `process::resume()`. -/
def process.resume (osKill : KillCall) (this : process) : SignalResult :=
  process.signal osKill this SIGCONT

/-- A running handle: pid 100, no exit handler. -/
def handle100 : process :=
  { pid := 100, retcode := 0, custom_exit_handler := none, custom_exit_handler_param := 0 }

/-- An operating system on which every `::kill` succeeds. -/
def killOk : KillCall := fun _ _ => none

/-! ## Spawning: `process::run` (the constructor) and `process::fork` -/

/-- Arguments of `process::run`; `none` is a null pointer. `fdmapv`, when not null, is an
array of at least `fdmapc` entries. -/
structure RunArgs where
  program : Option String
  argc : Nat
  argv : Option (List (Option String))
  fdmapc : Nat
  fdmapv : Option (List FdPair)

/-- What the operating system does during one call of `run` / `fork`.
* `sigactionErr`, `pipeErr`, `fcntlErr`: `errno` when the call fails, `none` on success;
* `forkRet`: value returned by `::fork()`, `forkErrno`: `errno` when that is `-1`;
* `reaped`: results of the `waitpid` calls of one run of the `SIGCHLD` handler that
  interrupts the caller after the masked region around `::fork()` has been left and
  before the failure is cleaned up or the call returns (empty: no handler run);
* `readRes`: outcome of the `read` loop on the error pipe: the bytes stored into `strnum`
  (at most `sizeof(strnum)`; empty = end of file), or the final `errno`;
* `uninit`: value of the uninitialised local `error`. -/
structure SpawnEnv where
  sigactionErr : Option Int
  pipeErr : Option Int
  fcntlErr : Option Int
  forkRet : Int
  forkErrno : Int
  reaped : List (Int × Int)
  readRes : Except Int (List Char)
  uninit : Nat

/-- How a call of `run` / `fork` ends for the caller. `child`: `::fork()` returned 0, this
is the child process (in `run` it goes on to `execv` or `std::abort` and never returns; in
`fork` it returns the empty `procptr`). `doubleFree`: the constructor rethrew `failure`
after it had deleted the object under construction, and the new-expression released the
same storage again; the behaviour is undefined from there (the C library aborts the
process) and no exception reaches the caller. -/
inductive SpawnResult where
  | returned (handle : Ptr)
  | raised (failure : Failure)
  | doubleFree (failure : Failure)
  | child
  deriving DecidableEq, Repr

/-- Lines 115 and 244: the statement `std::invalid_argument("...: dublicate target fds");`.
It is an expression statement: the temporary is built and destroyed, there is no `throw`
in front of it, so control continues. -/
def duplicateTargetStmt : Except Failure Unit := .ok ()

/-- Lines 113-115 / 242-244: the loop over `j = i+1 .. fdmapc-1` for a fixed `i` whose
target is `ti`. -/
def duplicateTargetInner (ti : Int) : List FdPair → Except Failure Unit
  | [] => .ok ()
  | e :: rest =>
    match (if ti = e.2 then duplicateTargetStmt else .ok ()) with
    | .error f => .error f
    | .ok _ => duplicateTargetInner ti rest

/-- Lines 112-115 / 241-244: the loop over `i`. -/
def duplicateTargetLoop : List FdPair → Except Failure Unit
  | [] => .ok ()
  | e :: rest =>
    match duplicateTargetInner e.2 rest with
    | .error f => .error f
    | .ok _ => duplicateTargetLoop rest

/-- The first `fdmapc` entries of the array `fdmapv` (none when it is null). -/
def fdmapEntries (fdmapc : Nat) (fdmapv : Option (List FdPair)) : List FdPair :=
  (fdmapv.getD []).take fdmapc

/-- Lines 103-115: argument validation of the constructor. -/
def validateRun (a : RunArgs) : Except Failure Unit :=
  if a.program.isNone then
    .error (.invalid_argument "process::process: program was null")
  else if a.argc ≠ 0 ∧ a.argv.isNone then
    .error (.invalid_argument "process::process: argc nonzero but argv is null")
  else if a.fdmapc ≠ 0 ∧ a.fdmapv.isNone then
    .error (.invalid_argument "process::process: fdmapc nonzero but fdmapv is null")
  else duplicateTargetLoop (fdmapEntries a.fdmapc a.fdmapv)

/-- Lines 238-244: argument validation of `process::fork`. -/
def validateFork (fdmapc : Nat) (fdmapv : Option (List FdPair)) : Except Failure Unit :=
  if fdmapc ≠ 0 ∧ fdmapv.isNone then
    .error (.invalid_argument "process::process: fdmapc nonzero but fdmapv is null")
  else duplicateTargetLoop (fdmapEntries fdmapc fdmapv)

/-- Lines 42-50, `process::init()`. -/
def process.init (w : World) (sigactionErr : Option Int) : Except Failure World :=
  if w.initialized then .ok w
  else
    match sigactionErr with
    | some e => .error (.SystemError e)
    | none => .ok { w with initialized := true, syscalls := w.syscalls ++ [Sys.sigaction] }

/-- Lines 90-92 / 100: a freshly constructed object (`pid(0)`, `retcode(0)`,
`custom_exit_handler(0)`; the handler parameter is not initialised and never read while
the handler is null). -/
def process.fresh : process :=
  { pid := 0, retcode := 0, custom_exit_handler := none, custom_exit_handler_param := 0 }

/-- The expression `new process(...)`: the next free address receives a fresh object. -/
def World.alloc (w : World) : World × Ptr :=
  ({ w with heap := fun p => if p = w.brk then process.fresh else w.heap p,
            brk := w.brk + 1 }, w.brk)

/-- The call `children.push_back( handle )` inside a `sigchild_guard` scope. -/
def World.push_back (w : World) (handle : Ptr) : World :=
  { w with children := w.children ++ [handle] }

/-- The call `children.pop_back()` inside a `sigchild_guard` scope: drops the last
element whichever it is (undefined on an empty vector). -/
def World.pop_back (w : World) : World :=
  { w with children := w.children.dropLast,
           undefined := w.undefined || w.children.isEmpty }

/-- Assignment to the `pid` member of the object at `this`. -/
def World.setPid (w : World) (this : Ptr) (pid : Int) : World :=
  { w with heap := fun p => if p = this then { w.heap this with pid := pid } else w.heap p }

/-- Destruction of one `procptr` to the object at `this` that is not stored in `children`
(line 213, `delete this->ptr`, for the `procptr` created at line 121; in `process::fork`
the local `child` when the exception unwinds). The copies stored in `children` are the
other owners; when none is left the destroyed `procptr` was the last owner and the object
is deleted, its storage released. -/
def World.dropOwner (w : World) (this : Ptr) : World :=
  if this ∈ w.children then w else { w with freed := w.freed ++ [this] }

/-- Line 214 as seen from the new-expression of line 61: `throw;` leaves the constructor
of the object at `this`, so the new-expression releases the storage of that object before
the exception travels on. When the storage was already released (the object was deleted
inside its constructor) this is a second release of the same storage. -/
def World.rethrowFromConstructor (w : World) (this : Ptr) (f : Failure) :
    World × SpawnResult :=
  if this ∈ w.freed then ({ w with undefined := true }, SpawnResult.doubleFree f)
  else ({ w with freed := w.freed ++ [this] }, SpawnResult.raised f)

/-- Lines 207-215, the `catch` block of the constructor in the parent: `pid = 0`,
`children.pop_back()` under the guard, `delete this->ptr`, `throw;`. -/
def catchInParent (w : World) (this : Ptr) (f : Failure) : World × SpawnResult :=
  (((w.setPid this 0).pop_back).dropOwner this).rethrowFromConstructor this f

/-- Appends a system call to the record. -/
def World.sys (w : World) (c : Sys) : World :=
  { w with syscalls := w.syscalls ++ [c] }

/-- Lines 175-192 / 289-306, parent side after `::fork()`: the `read` loop and the
decision taken on its result. -/
def parentRead (w : World) (env : SpawnEnv) : World × Except Failure Unit :=
  let w1 := w.sys Sys.read
  match env.readRes with
  | .error e => (w1, .error (.SystemError e))
  | .ok bytes =>
    if bytes.length ≠ 0 then
      (w1, .error (.SystemError (parentErrorNumber env.uninit bytes)))
    else (w1, .ok ())

/-- Lines 135-192: the `try` block of the constructor for the object at `this`. The result
is `none` in the child, otherwise whether the block completed or threw. With `fcntlStep`
false (the `try` block of `process::fork`, lines 256-308) there is no `fcntl` call. -/
def spawnTry (fcntlStep : Bool) (w : World) (this : Ptr) (env : SpawnEnv) :
    World × Option (Except Failure Unit) :=
  let w1 := w.sys Sys.pipe
  match env.pipeErr with
  | some e => (w1, some (.error (.SystemError e)))
  | none =>
    let w2 := if fcntlStep then w1.sys Sys.fcntl else w1
    match (if fcntlStep then env.fcntlErr else none) with
    | some e => (w2, some (.error (.SystemError e)))
    | none =>
      let w3 := w2.sys Sys.fork
      let w4 := if env.forkRet ≠ -1 then w3.setPid this env.forkRet else w3
      if env.forkRet = -1 then (w4, some (.error (.SystemError env.forkErrno)))
      else if env.forkRet = 0 then (w4, none)
      else
        let w5 := process.sigchild_handler w4 env.reaped
        let r := parentRead w5 env
        (r.1, some r.2)

/-- Lines 54-64 and 94-218, `process::run( program, argc, argv, fdmapc, fdmapv )` as seen
by the caller: validation, `init()`, registration of the new handle, the `try` block, and
on a failure in the parent the `catch` block (lines 207-215: `pid = 0`,
`children.pop_back()`, `delete this->ptr`, rethrow out of the constructor). -/
def process.run (w : World) (a : RunArgs) (env : SpawnEnv) : World × SpawnResult :=
  match validateRun a with
  | .error f => (w, .raised f)
  | .ok _ =>
    match process.init w env.sigactionErr with
    | .error f => (w, .raised f)
    | .ok w1 =>
      let al := w1.alloc
      let this := al.2
      let w2 := al.1.push_back this
      match spawnTry true w2 this env with
      | (w3, none) => (w3, .child)
      | (w3, some (.ok _)) => (w3, .returned this)
      | (w3, some (.error f)) => catchInParent w3 this f

/-- Lines 233-332, `process::fork( preserve_fds, fdmapc, fdmapv )` as seen by the caller
in the parent (the model stops at the branch point in the child). The `catch` block
(lines 323-329) is `children.pop_back()` and rethrow; the object is owned by the local
`child`, which is destroyed once while the exception unwinds. -/
def process.fork (w : World) (fdmapc : Nat) (fdmapv : Option (List FdPair))
    (env : SpawnEnv) : World × SpawnResult :=
  match validateFork fdmapc fdmapv with
  | .error f => (w, .raised f)
  | .ok _ =>
    let al := w.alloc
    let child := al.2
    let w2 := al.1.push_back child
    match spawnTry false w2 child env with
    | (w3, none) => (w3, .child)
    | (w3, some (.ok _)) => (w3, .returned child)
    | (w3, some (.error f)) => (w3.pop_back.dropOwner child, .raised f)

/-- How the child branch of the constructor ends: the process image was replaced by
`execv` (with the descriptor table it inherited), or the child wrote `bytes` to the error
pipe and called `std::abort`. -/
inductive ChildEnd where
  | exec (fds : FdTable)
  | aborted (bytes : List Char)

/-- Lines 168-173 and 195-206: the child branch of the constructor. `errorfds` are the two
ends of the error pipe, `execErr` the `errno` of a failed `execv` (`none`: it
succeeded). -/
def runChild (openMax : Int) (mallocOk : Bool) (t : FdTable) (fdmap : List FdPair)
    (errorfds : Int × Int) (execErr : Option Int) : ChildEnd :=
  match process.move_close_fds openMax mallocOk (close t errorfds.1) fdmap
      [errorfds.1, errorfds.2] with
  | .error e => .aborted (childRelay e)
  | .ok t1 =>
    match execErr with
    | none => .exec t1
    | some e => .aborted (childRelay e)

/-- An empty process-wide state: nothing registered, allocator at address 1. -/
def World.empty : World :=
  { children := [], initialized := false, heap := fun _ => process.fresh, brk := 1,
    freed := [], exitCalls := [], syscalls := [], undefined := false }

/-- The environment of a launch that succeeds: every call succeeds, `::fork()` returns
`pid`, the error pipe delivers end of file, no handler run in between. -/
def SpawnEnv.success (pid : Int) : SpawnEnv :=
  { sigactionErr := none, pipeErr := none, fcntlErr := none, forkRet := pid, forkErrno := 0,
    reaped := [], readRes := .ok [], uninit := 0 }

/-- A registry holding two running children: the object at address 1 has pid 10, the
object at address 2 has pid 20; the next free address is 3. -/
def World.two : World :=
  { children := [1, 2],
    initialized := true,
    heap := fun p =>
      if p = 1 then { process.fresh with pid := 10 }
      else if p = 2 then { process.fresh with pid := 20 }
      else process.fresh,
    brk := 3, freed := [], exitCalls := [], syscalls := [], undefined := false }

/-- A registry holding one running child: the object at address 1 has pid 10; the next
free address is 2. -/
def World.one : World :=
  { children := [1],
    initialized := true,
    heap := fun p => if p = 1 then { process.fresh with pid := 10 } else process.fresh,
    brk := 2, freed := [], exitCalls := [], syscalls := [], undefined := false }

/-- A call `run("/bin/true", 2, {{3,5},{4,5}})`: both entries have the target 5. -/
def duplicateArgs : RunArgs :=
  { program := some "/bin/true", argc := 0, argv := none, fdmapc := 2,
    fdmapv := some [(3, 5), (4, 5)] }

/-- A call `run("/nonexistent")`. -/
def missingArgs : RunArgs :=
  { program := some "/nonexistent", argc := 0, argv := none, fdmapc := 0, fdmapv := none }

/-- The environment of `run("/nonexistent")` when the child (pid 20) has already been
collected by the `SIGCHLD` handler (it aborted, wait status 134) by the time the parent
leaves `read` with the relayed `ENOENT`. -/
def SpawnEnv.reapedEarly : SpawnEnv :=
  { sigactionErr := none, pipeErr := none, fcntlErr := none, forkRet := 20, forkErrno := 0,
    reaped := [(20, 134)], readRes := .ok (childRelay ENOENT), uninit := 0 }

/-- The environment of `run("/nonexistent")` when no `SIGCHLD` handler runs before the
cleanup: the parent reads the relayed `ENOENT`. -/
def SpawnEnv.enoent : SpawnEnv :=
  { sigactionErr := none, pipeErr := none, fcntlErr := none, forkRet := 20, forkErrno := 0,
    reaped := [], readRes := .ok (childRelay ENOENT), uninit := 0 }

/-- The environment of a `fork` whose child (pid 20) fails in `move_close_fds` with
`EMFILE`, relays it and aborts, and is collected by the `SIGCHLD` handler (wait status
134) before the parent reaches its `catch` block. -/
def SpawnEnv.forkReapedEarly : SpawnEnv :=
  { sigactionErr := none, pipeErr := none, fcntlErr := none, forkRet := 20, forkErrno := 0,
    reaped := [(20, 134)], readRes := .ok (childRelay EMFILE), uninit := 0 }

/-! # Theorems -/

/-! ## Lemmas on the sweep loops -/

theorem mem_fdRange (lo hi fd : Int) : fd ∈ fdRange lo hi ↔ lo ≤ fd ∧ fd < hi := by
  unfold fdRange
  simp only [List.mem_map, List.mem_range]
  constructor
  · rintro ⟨k, hk, rfl⟩
    omega
  · rintro ⟨h1, h2⟩
    refine ⟨(fd - lo).toNat, ?_, ?_⟩ <;> omega

theorem foldl_close_apply (l : List Int) (t : FdTable) (fd : Int) :
    (l.foldl close t) fd = if fd ∈ l then none else t fd := by
  induction l generalizing t with
  | nil => simp
  | cons a l ih =>
    rw [List.foldl_cons, ih]
    by_cases h1 : fd ∈ l
    · simp [h1]
    · by_cases h2 : fd = a
      · simp [h1, h2, close]
      · simp [h1, h2, close]

theorem closeFrom_apply (t : FdTable) (lo openMax fd : Int) :
    closeFrom t lo openMax fd = if lo ≤ fd ∧ fd < openMax then none else t fd := by
  unfold closeFrom
  rw [foldl_close_apply]
  simp only [mem_fdRange]

theorem foldl_sweep_isSome (fdm : List FdPair) (l : List Int) (t : FdTable) (fd : Int)
    (hmem : fd ∈ l)
    (hopen : ((l.foldl
      (fun acc x => if fdm.any (fun e => e.2 == x) then acc else close acc x) t) fd).isSome) :
    ∃ e ∈ fdm, e.2 = fd := by
  induction l generalizing t with
  | nil => simp at hmem
  | cons a l ih =>
    rw [List.foldl_cons] at hopen
    by_cases hl : fd ∈ l
    · exact ih _ hl hopen
    · have ha : fd = a := by
        rcases List.mem_cons.mp hmem with h | h
        · exact h
        · exact absurd h hl
      subst ha
      by_cases hany : fdm.any (fun e => e.2 == fd) = true
      · rw [List.any_eq_true] at hany
        obtain ⟨e, he, heq⟩ := hany
        exact ⟨e, he, by simpa using heq⟩
      · exfalso
        have hstep : ∀ (l2 : List Int) (u : FdTable), u fd = none →
            (l2.foldl (fun acc x => if fdm.any (fun e => e.2 == x) then acc else close acc x) u) fd
              = none := by
          intro l2
          induction l2 with
          | nil => intro u hu; simpa using hu
          | cons b l2 ih2 =>
            intro u hu
            rw [List.foldl_cons]
            apply ih2
            by_cases hb : fdm.any (fun e => e.2 == b) = true
            · simp only [hb, if_true]; exact hu
            · simp only [hb]
              by_cases hfb : fd = b
              · simp [close, hfb]
              · simp [close, hfb, hu]
        have : (List.foldl
            (fun acc x => if fdm.any (fun e => e.2 == x) then acc else close acc x)
            (if fdm.any (fun e => e.2 == fd) then t else close t fd) l) fd = none := by
          apply hstep
          simp [hany, close]
        rw [this] at hopen
        simp at hopen

theorem sweepLow_le (fdm : List FdPair) (t : FdTable) (maxfd fd : Int)
    (hopen : (sweepLow fdm t maxfd fd).isSome) : (t fd).isSome := by
  unfold sweepLow at hopen
  generalize fdRange 0 (maxfd + 1) = l at hopen
  induction l generalizing t with
  | nil => simpa using hopen
  | cons a l ih =>
    rw [List.foldl_cons] at hopen
    have := ih _ hopen
    by_cases hany : fdm.any (fun e => e.2 == a) = true
    · simpa [hany] using this
    · simp only [hany] at this
      unfold close at this
      by_cases hfa : fd = a
      · simp [hfa] at this
      · simpa [hfa] using this

/-! ## Validation of the descriptor mapping -/

/-- C1: on the call `run("/bin/true", {{3,5},{4,5}})`, whose two entries share the target
5, validation passes, and with an operating system on which every call succeeds the
handle is registered, `pipe` and `::fork()` are performed and the handle is returned;
`process::fork` with the same mapping does the same. No invalid-argument failure is
raised. -/
theorem run_duplicate_targets_accepted :
    validateRun duplicateArgs = .ok () ∧
    (process.run World.empty duplicateArgs (SpawnEnv.success 4242)).2 = .returned 1 ∧
    (process.run World.empty duplicateArgs (SpawnEnv.success 4242)).1.children = [1] ∧
    (process.run World.empty duplicateArgs (SpawnEnv.success 4242)).1.syscalls
      = [Sys.sigaction, Sys.pipe, Sys.fcntl, Sys.fork, Sys.read] ∧
    validateFork 2 (some [(3, 5), (4, 5)]) = .ok () ∧
    (process.fork World.empty 2 (some [(3, 5), (4, 5)]) (SpawnEnv.success 4242)).2
      = .returned 1 ∧
    (process.fork World.empty 2 (some [(3, 5), (4, 5)]) (SpawnEnv.success 4242)).1.children
      = [1] ∧
    (process.fork World.empty 2 (some [(3, 5), (4, 5)]) (SpawnEnv.success 4242)).1.syscalls
      = [Sys.pipe, Sys.fork, Sys.read] := by
  decide

/-! ## The descriptor remapper -/

/-- C2: for the swap mapping `{{3,4},{4,3}}` on a table where fd 3 is open on file 103 and
fd 4 on file 104, `move_close_fds` returns normally and afterwards fd 4 refers to file 103
but fd 3 refers to file 103 as well, not to file 104; this holds with the keep list
`{5,6}` of the constructor (then fd 5 is left open on file 104) and with an empty keep
list. -/
theorem move_close_fds_swap_loses_file :
    fdAfter (process.move_close_fds 16 true swapTable [(3, 4), (4, 3)] [5, 6]) 4
      = some (some 103) ∧
    fdAfter (process.move_close_fds 16 true swapTable [(3, 4), (4, 3)] [5, 6]) 3
      = some (some 103) ∧
    fdAfter (process.move_close_fds 16 true swapTable [(3, 4), (4, 3)] [5, 6]) 5
      = some (some 104) ∧
    fdAfter (process.move_close_fds 16 true swapTable [(3, 4), (4, 3)] []) 4
      = some (some 103) ∧
    fdAfter (process.move_close_fds 16 true swapTable [(3, 4), (4, 3)] []) 3
      = some (some 103) := by
  decide

/-! ## The reaper -/

/-- C3: with the registry `[1, 2]` (pids 10 and 20) and the collected pair (10, 7),
`waitpid_helper` erases the handle at address 1 and runs the completion on the handle at
address 2: afterwards handle 1 still has pid 10 and retcode 0, while handle 2, whose
process was not collected, has pid 0 and retcode 7. -/
theorem waitpid_helper_completes_next_handle :
    (process.waitpid_helper World.two (10, 7)).1.children = [2] ∧
    ((process.waitpid_helper World.two (10, 7)).1.heap 1).pid = 10 ∧
    ((process.waitpid_helper World.two (10, 7)).1.heap 1).retcode = 0 ∧
    ((process.waitpid_helper World.two (10, 7)).1.heap 2).pid = 0 ∧
    ((process.waitpid_helper World.two (10, 7)).1.heap 2).retcode = 7 ∧
    (process.waitpid_helper World.two (10, 7)).1.undefined = false := by
  decide

/-! ## Signals -/

/-- C4: on a handle with pid 100, `kill(true)` sends `SIGTERM` and `kill(false)` sends
`SIGKILL`. -/
theorem kill_force_sends_SIGTERM :
    process.kill killOk handle100 true = (.ok (), [(100, SIGTERM)]) ∧
    process.kill killOk handle100 false = (.ok (), [(100, SIGKILL)]) := by
  decide

/-- C5: whatever the operating system answers and whatever the handle, `pause()` raises
`std::invalid_argument` and makes no `::kill` call. -/
theorem pause_raises_invalid_argument (osKill : KillCall) (this : process) :
    process.pause osKill this
      = (.error (.invalid_argument "Use process::quit() for SIGQUIT"), []) := by
  simp [process.pause, process.signal, SIGSTOP, SIGKILL, SIGTERM]

/-- C6, as stated, fails for `SIGCONT`: on a handle with pid 100 and an operating system
that accepts the signal, `signal(SIGCONT)` makes the call `::kill(100, SIGCONT)` and
returns normally, so "raises invalid-argument without sending" is false although
`SIGCONT` is among the signals with a dedicated operation. -/
theorem signal_SIGCONT_is_sent :
    process.signal killOk handle100 SIGCONT = (.ok (), [(100, SIGCONT)]) ∧
    ¬ (rejectedUnsent (process.signal killOk handle100 SIGCONT) = true ↔
       (SIGCONT = SIGTERM ∨ SIGCONT = SIGKILL ∨ SIGCONT = SIGQUIT ∨ SIGCONT = SIGSTOP
        ∨ SIGCONT = SIGCONT)) := by
  decide

/-- C6, amended: `signal(code)` raises `std::invalid_argument` without any `::kill` call
when `code` is `SIGTERM` or `SIGKILL`; for every code other than `SIGTERM`, `SIGKILL`,
`SIGSTOP` and `SIGQUIT` (so also for `SIGCONT`) it does not do so, and on a handle with
non-zero pid it makes exactly the call `::kill(pid, code)`. -/
theorem signal_rejects_kill_codes_sends_others (osKill : KillCall) (this : process)
    (code : Int) :
    (code = SIGTERM ∨ code = SIGKILL →
      rejectedUnsent (process.signal osKill this code) = true) ∧
    (code ≠ SIGTERM → code ≠ SIGKILL → code ≠ SIGSTOP → code ≠ SIGQUIT →
      rejectedUnsent (process.signal osKill this code) = false ∧
      (this.pid ≠ 0 → (process.signal osKill this code).2 = [(this.pid, code)])) := by
  refine ⟨?_, ?_⟩
  · rintro (h | h)
    · subst h
      simp [process.signal, rejectedUnsent, Failure.isInvalidArgument, SIGTERM, SIGKILL]
    · subst h
      simp [process.signal, rejectedUnsent, Failure.isInvalidArgument]
  · intro h1 h2 h3 _
    unfold process.signal
    simp only [h1, h2, h3, if_false]
    by_cases hp : this.pid = 0
    · simp [hp, rejectedUnsent, Failure.isInvalidArgument]
    · simp only [hp, if_false]
      cases hk : osKill this.pid code with
      | none => simp [rejectedUnsent]
      | some e =>
        by_cases he : e = EINVAL
        · simp [he, rejectedUnsent]
        · simp [he, rejectedUnsent, Failure.isInvalidArgument]

/-- Witness for C6, amended: `signal(SIGTERM)` is rejected unsent, `signal(SIGCONT)` on a
handle with pid 100 is not, it makes the call `::kill(100, SIGCONT)`. -/
theorem signal_rejects_kill_codes_sends_others_witness :
    rejectedUnsent (process.signal killOk handle100 SIGTERM) = true ∧
    rejectedUnsent (process.signal killOk handle100 SIGCONT) = false ∧
    (process.signal killOk handle100 SIGCONT).2 = [(handle100.pid, SIGCONT)] :=
  ⟨(signal_rejects_kill_codes_sends_others killOk handle100 SIGTERM).1 (Or.inl rfl),
   ((signal_rejects_kill_codes_sends_others killOk handle100 SIGCONT).2
      (by decide) (by decide) (by decide) (by decide)).1,
   ((signal_rejects_kill_codes_sends_others killOk handle100 SIGCONT).2
      (by decide) (by decide) (by decide) (by decide)).2 (by decide)⟩

/-! ## Cleanup after a failed launch -/

/-- C7: a failed `run` does not raise the failure to the caller, and its cleanup can
drop another handle. With the registry `[1]` (pid 10, never collected),
`run("/nonexistent")` forks pid 20 and the parent reads the relayed `ENOENT`.
Without a handler run in between, the `catch` block removes the new handle (address 2)
from the registry, `delete this->ptr` deletes the object inside its own constructor and
the rethrow makes the new-expression release its storage a second time: the call ends in
a double free and not in a raised `SystemError`. When the `SIGCHLD` handler has collected
pid 20 before the `catch` block (it erases the new handle, leaving `[1]`),
`children.pop_back()` removes handle 1 instead: the registry is empty although handle 1
is still running with pid 10 and its object was not released, and the call again ends in
the double free. In `process::fork`, whose `catch` block has the same `pop_back` and no
`delete`, the failure is raised and handle 1 is dropped in the same way. -/
theorem run_failure_double_free_and_wrong_pop :
    (process.run World.one missingArgs SpawnEnv.enoent).2
      = .doubleFree (.SystemError ENOENT) ∧
    (process.run World.one missingArgs SpawnEnv.enoent).1.children = [1] ∧
    (process.run World.one missingArgs SpawnEnv.enoent).1.freed = [2] ∧
    (process.run World.one missingArgs SpawnEnv.enoent).1.undefined = true ∧
    (process.sigchild_handler
      ((((((World.one.alloc).1.push_back 2).sys Sys.pipe).sys Sys.fcntl).sys Sys.fork).setPid
        2 20) [(20, 134)]).children = [1] ∧
    (process.run World.one missingArgs SpawnEnv.reapedEarly).2
      = .doubleFree (.SystemError ENOENT) ∧
    (process.run World.one missingArgs SpawnEnv.reapedEarly).1.children = [] ∧
    (process.run World.one missingArgs SpawnEnv.reapedEarly).1.freed = [2] ∧
    ((process.run World.one missingArgs SpawnEnv.reapedEarly).1.heap 1).pid = 10 ∧
    (process.fork World.one 0 none SpawnEnv.forkReapedEarly).2
      = .raised (.SystemError EMFILE) ∧
    (process.fork World.one 0 none SpawnEnv.forkReapedEarly).1.children = [] ∧
    ((process.fork World.one 0 none SpawnEnv.forkReapedEarly).1.heap 1).pid = 10 := by
  decide

/-! ## The sweep of `move_close_fds` -/

/-- C9: when `move_close_fds` returns normally on a non-empty merged list, every
descriptor of `[0, _SC_OPEN_MAX)` that is open afterwards is the target of an entry of the
merged list; on an empty merged list it returns normally and every descriptor of
`[0, _SC_OPEN_MAX)` is closed afterwards. -/
theorem move_close_fds_leaves_only_targets (openMax : Int) (mallocOk : Bool) (t : FdTable)
    (fdmapv : List FdPair) (keepfdv : List Int) (fd : Int)
    (h0 : 0 ≤ fd) (h1 : fd < openMax) :
    (mergeKeep fdmapv keepfdv ≠ [] →
      ∀ f, fdAfter (process.move_close_fds openMax mallocOk t fdmapv keepfdv) fd
          = some (some f) →
        ∃ e ∈ mergeKeep fdmapv keepfdv, e.2 = fd) ∧
    (mergeKeep fdmapv keepfdv = [] →
      fdAfter (process.move_close_fds openMax mallocOk t fdmapv keepfdv) fd = some none) := by
  have hlen : (mergeKeep fdmapv keepfdv).length = fdmapv.length + keepfdv.length := by
    simp [mergeKeep]
  refine ⟨?_, ?_⟩
  · intro hne f hf
    have hpos : ¬ (fdmapv.length + keepfdv.length = 0) := by
      rw [← hlen]
      intro h
      exact hne (List.length_eq_zero.mp h)
    unfold process.move_close_fds at hf
    simp only [hpos, if_false] at hf
    cases mallocOk with
    | false => simp [fdAfter] at hf
    | true =>
      simp only [Bool.not_true, Bool.false_eq_true, if_false] at hf
      cases hm : moveLoop openMax (mergeKeep fdmapv keepfdv).length t 0
          (mergeKeep fdmapv keepfdv) with
      | error e => rw [hm] at hf; simp [fdAfter] at hf
      | ok r =>
        obtain ⟨t1, maxfd⟩ := r
        rw [hm] at hf
        simp only [fdAfter, Option.some.injEq] at hf
        have hopen : (sweepLow (mergeKeep fdmapv keepfdv)
            (closeFrom t1 (maxfd + 1) openMax) maxfd fd).isSome := by
          rw [hf]; rfl
        have hmid := sweepLow_le _ _ _ _ hopen
        rw [closeFrom_apply] at hmid
        have hle : fd ≤ maxfd := by
          by_contra hgt
          have : maxfd + 1 ≤ fd ∧ fd < openMax := ⟨by omega, h1⟩
          simp [this] at hmid
        have hmem : fd ∈ fdRange 0 (maxfd + 1) := (mem_fdRange _ _ _).mpr ⟨h0, by omega⟩
        exact foldl_sweep_isSome _ _ _ _ hmem hopen
  · intro hnil
    have hzero : fdmapv.length + keepfdv.length = 0 := by
      rw [← hlen, hnil]; rfl
    unfold process.move_close_fds
    simp only [hzero, if_true, fdAfter, closeFrom_apply]
    simp [h0, h1]

/-- Witness for C9: after the swap call on `swapTable` with the keep list `{5,6}`, fd 3 is
open and is a target of the merged list; after the call with empty lists fd 3 is
closed. -/
theorem move_close_fds_leaves_only_targets_witness :
    (∃ e ∈ mergeKeep [(3, 4), (4, 3)] [5, 6], e.2 = 3) ∧
    fdAfter (process.move_close_fds 16 true swapTable [] []) 3 = some none :=
  ⟨(move_close_fds_leaves_only_targets 16 true swapTable [(3, 4), (4, 3)] [5, 6] 3
      (by decide) (by decide)).1 (by decide) 103 (by decide),
   (move_close_fds_leaves_only_targets 16 true swapTable [] [] 3
      (by decide) (by decide)).2 (by decide)⟩

/-! ## A successful launch -/

theorem duplicateTargetInner_ok (ti : Int) (l : List FdPair) :
    duplicateTargetInner ti l = .ok () := by
  induction l with
  | nil => rfl
  | cons e rest ih =>
    unfold duplicateTargetInner
    simp only [duplicateTargetStmt, ite_self, ih]

theorem duplicateTargetLoop_ok (l : List FdPair) : duplicateTargetLoop l = .ok () := by
  induction l with
  | nil => rfl
  | cons e rest ih =>
    unfold duplicateTargetLoop
    simp [duplicateTargetInner_ok, ih]

theorem spawnTry_success (w : World) (this : Ptr) (env : SpawnEnv)
    (hpipe : env.pipeErr = none) (hfcntl : env.fcntlErr = none)
    (hfork : 0 < env.forkRet) (hreap : env.reaped = []) (hread : env.readRes = .ok []) :
    spawnTry true w this env
      = (World.sys (World.setPid (World.sys (World.sys (World.sys w Sys.pipe) Sys.fcntl)
          Sys.fork) this env.forkRet) Sys.read, some (.ok ())) := by
  have hne1 : env.forkRet ≠ -1 := by omega
  have hne0 : env.forkRet ≠ 0 := by omega
  simp [spawnTry, hpipe, hfcntl, hne1, hne0, hreap, process.sigchild_handler, parentRead,
    hread]

/-- C10: for every registry state whose handles were all allocated earlier, every call of
`run` with valid arguments on which `init`, `pipe` and `fcntl` succeed, `::fork()` returns
a pid `> 0`, no `SIGCHLD` handler runs in between and the error pipe delivers end of file
returns the new handle; that handle has the forked pid, `isRunning()` is true, and the
registry is the old one with the handle appended, containing it exactly once. -/
theorem run_success_registers_once (w : World) (a : RunArgs) (env : SpawnEnv)
    (hfresh : ∀ p ∈ w.children, p < w.brk)
    (hprog : a.program.isNone = false)
    (hargv : a.argc = 0 ∨ a.argv.isNone = false)
    (hfdmap : a.fdmapc = 0 ∨ a.fdmapv.isNone = false)
    (hinit : w.initialized = true ∨ env.sigactionErr = none)
    (hpipe : env.pipeErr = none) (hfcntl : env.fcntlErr = none)
    (hfork : 0 < env.forkRet) (hreap : env.reaped = []) (hread : env.readRes = .ok []) :
    (process.run w a env).2 = .returned w.brk ∧
    ((process.run w a env).1.heap w.brk).pid = env.forkRet ∧
    process.isRunning ((process.run w a env).1.heap w.brk) = true ∧
    (process.run w a env).1.children = w.children ++ [w.brk] ∧
    (process.run w a env).1.children.count w.brk = 1 := by
  have hval : validateRun a = .ok () := by
    unfold validateRun
    have h1 : ¬ (a.argc ≠ 0 ∧ a.argv.isNone = true) := by
      rcases hargv with h | h
      · simp [h]
      · simp [h]
    have h2 : ¬ (a.fdmapc ≠ 0 ∧ a.fdmapv.isNone = true) := by
      rcases hfdmap with h | h
      · simp [h]
      · simp [h]
    simp only [hprog, h1, h2, if_false, Bool.false_eq_true]
    exact duplicateTargetLoop_ok _
  have hne1 : env.forkRet ≠ -1 := by omega
  have hne0 : env.forkRet ≠ 0 := by omega
  have hcount : w.children.count w.brk = 0 := by
    rw [List.count_eq_zero]
    intro hmem
    exact absurd (hfresh _ hmem) (lt_irrefl _)
  have fin : ∀ w1 : World, w1.children = w.children → w1.brk = w.brk →
      process.init w env.sigactionErr = .ok w1 →
      (process.run w a env).2 = .returned w.brk ∧
      ((process.run w a env).1.heap w.brk).pid = env.forkRet ∧
      process.isRunning ((process.run w a env).1.heap w.brk) = true ∧
      (process.run w a env).1.children = w.children ++ [w.brk] ∧
      (process.run w a env).1.children.count w.brk = 1 := by
    intro w1 hc hb hi
    have hrun : process.run w a env
        = (World.sys (World.setPid (World.sys (World.sys (World.sys
            (w1.alloc.1.push_back w1.alloc.2) Sys.pipe) Sys.fcntl) Sys.fork)
            w1.alloc.2 env.forkRet) Sys.read, SpawnResult.returned w1.alloc.2) := by
      unfold process.run
      simp only [hval, hi]
      rw [spawnTry_success _ _ env hpipe hfcntl hfork hreap hread]
    rw [hrun]
    simp [World.alloc, World.push_back, World.sys, World.setPid, hc, hb, process.isRunning,
      hne0, hcount]
  unfold process.init at fin
  rcases hinit with h | h
  · exact fin w rfl rfl (by simp [h])
  · by_cases hi : w.initialized = true
    · exact fin w rfl rfl (by simp [hi])
    · exact fin { w with initialized := true, syscalls := w.syscalls ++ [Sys.sigaction] }
        rfl rfl (by simp [hi, h])

/-- Witness for C10: `run("/bin/true", {{3,5},{4,5}})` on the empty registry with forked
pid 4242. -/
theorem run_success_registers_once_witness :
    (process.run World.empty duplicateArgs (SpawnEnv.success 4242)).2
      = .returned World.empty.brk ∧
    ((process.run World.empty duplicateArgs (SpawnEnv.success 4242)).1.heap
      World.empty.brk).pid = (SpawnEnv.success 4242).forkRet ∧
    process.isRunning ((process.run World.empty duplicateArgs (SpawnEnv.success 4242)).1.heap
      World.empty.brk) = true ∧
    (process.run World.empty duplicateArgs (SpawnEnv.success 4242)).1.children
      = World.empty.children ++ [World.empty.brk] ∧
    (process.run World.empty duplicateArgs (SpawnEnv.success 4242)).1.children.count
      World.empty.brk = 1 :=
  run_success_registers_once World.empty duplicateArgs (SpawnEnv.success 4242)
    (by decide) (by decide) (by decide) (by decide) (by decide) (by decide) (by decide)
    (by decide) (by decide) (by decide)

/-! ## The error pipe -/

theorem hexChar_props (d : Nat) (h : d < 16) :
    hexVal (hexChar d) = some d ∧ (hexChar d != NUL) = true ∧ isSpace (hexChar d) = false ∧
    (hexChar d).toNat ≠ 45 ∧ (hexChar d).toNat ≠ 43 ∧ (hexChar d).toNat ≠ 120 ∧
    (hexChar d).toNat ≠ 88 := by
  interval_cases d <;> decide

theorem hexDigitsRev_lt (f n : Nat) : ∀ d ∈ hexDigitsRev f n, d < 16 := by
  induction f generalizing n with
  | zero => intro d hd; simp [hexDigitsRev] at hd
  | succ f ih =>
    intro d hd
    unfold hexDigitsRev at hd
    by_cases h : n < 16
    · simp only [h, if_true, List.mem_singleton] at hd
      omega
    · simp only [h, if_false, List.mem_cons] at hd
      rcases hd with hd | hd
      · omega
      · exact ih _ d hd

theorem hexDigitsRev_length (f n : Nat) : (hexDigitsRev f n).length ≤ f := by
  induction f generalizing n with
  | zero => simp [hexDigitsRev]
  | succ f ih =>
    unfold hexDigitsRev
    by_cases h : n < 16
    · simp [h]
    · simp only [h, if_false, List.length_cons]
      have := ih (n / 16)
      omega

theorem hexDigitsRev_ne_nil (f n : Nat) : hexDigitsRev (f + 1) n ≠ [] := by
  unfold hexDigitsRev
  by_cases h : n < 16
  · simp [h]
  · simp [h]

theorem hexDigitsRev_value (f n : Nat) (h : n < 16 ^ f) :
    (hexDigitsRev f n).foldr (fun d acc => acc * 16 + d) 0 = n := by
  induction f generalizing n with
  | zero =>
    simp only [pow_zero, Nat.lt_one_iff] at h
    simp [hexDigitsRev, h]
  | succ f ih =>
    unfold hexDigitsRev
    by_cases h16 : n < 16
    · simp [h16]
    · simp only [h16, if_false, List.foldr_cons]
      have hdiv : n / 16 < 16 ^ f := by
        apply Nat.div_lt_of_lt_mul
        rw [pow_succ] at h
        omega
      rw [ih _ hdiv]
      omega

theorem scanHex_digits (ds : List Nat) (hds : ∀ d ∈ ds, d < 16) (acc : Nat) :
    scanHex acc (ds.map hexChar) = ds.foldl (fun a d => a * 16 + d) acc := by
  induction ds generalizing acc with
  | nil => rfl
  | cons d ds ih =>
    have hd := (hexChar_props d (hds d (List.mem_cons_self _ _))).1
    simp only [List.map_cons, scanHex, hd, List.foldl_cons]
    exact ih (fun x hx => hds x (List.mem_cons_of_mem _ hx)) _

theorem takeWhile_digits (ds : List Nat) (hds : ∀ d ∈ ds, d < 16) (tail : List Char) :
    (ds.map hexChar ++ NUL :: tail).takeWhile (fun c => c != NUL) = ds.map hexChar := by
  induction ds with
  | nil => simp [List.takeWhile]
  | cons d ds ih =>
    have hd := (hexChar_props d (hds d (List.mem_cons_self _ _))).2.1
    have ih1 := ih (fun x hx => hds x (List.mem_cons_of_mem _ hx))
    rw [List.map_cons, List.cons_append, List.takeWhile_cons, hd, if_pos rfl, ih1]

theorem sscanf_x_digits (ds : List Nat) (hne : ds ≠ []) (hds : ∀ d ∈ ds, d < 16)
    (tail : List Char) :
    sscanf_x (ds.map hexChar ++ NUL :: tail)
      = some (ds.foldl (fun a d => a * 16 + d) 0 % 4294967296) := by
  unfold sscanf_x
  rw [takeWhile_digits ds hds tail]
  have hscan := scanHex_digits ds hds 0
  cases ds with
  | nil => exact absurd rfl hne
  | cons d ds =>
    obtain ⟨hv, _, hsp, h45, h43, _, _⟩ := hexChar_props d (hds d (List.mem_cons_self _ _))
    have hdrop : ((d :: ds).map hexChar).dropWhile isSpace = (d :: ds).map hexChar := by
      simp [List.dropWhile, hsp]
    have hpre : dropHexPrefix ((d :: ds).map hexChar) = (d :: ds).map hexChar := by
      cases ds with
      | nil => rfl
      | cons d1 ds =>
        obtain ⟨_, _, _, _, _, h120, h88⟩ := hexChar_props d1
          (hds d1 (List.mem_cons_of_mem _ (List.mem_cons_self _ _)))
        simp [dropHexPrefix, h120, h88]
    simp only [hdrop]
    have hsign : (((d :: ds).map hexChar).head?.any
        (fun c => decide (c.toNat = 45 ∨ c.toNat = 43))) = false := by
      simp [h45, h43]
    have hneg : (((d :: ds).map hexChar).head?.any (fun c => decide (c.toNat = 45))) = false := by
      simp [h45]
    simp only [hsign, hneg, Bool.false_eq_true, if_false, hpre, hscan]
    simp [startsWithHex, hv]

theorem toSigned_toUnsigned (e : Int) (hlo : -2147483648 ≤ e) (hhi : e < 2147483648) :
    toSigned (toUnsigned e) = e := by
  unfold toSigned toUnsigned
  have h1 : (e % 4294967296).toNat % 4294967296 = (e % 4294967296).toNat := by omega
  rw [h1]
  split <;> omega

theorem toUnsigned_lt (e : Int) : toUnsigned e < 16 ^ 8 := by
  unfold toUnsigned
  omega

theorem fmt_x_length (u : Nat) : 0 < (fmt_x u).length ∧ (fmt_x u).length ≤ 8 := by
  unfold fmt_x
  simp only [List.length_map, List.length_reverse]
  refine ⟨?_, hexDigitsRev_length 8 u⟩
  exact List.length_pos.mpr (hexDigitsRev_ne_nil 7 u)

theorem childRelay_eq (e : Int) : childRelay e = fmt_x (toUnsigned e) := by
  have hlen := (fmt_x_length (toUnsigned e)).2
  unfold childRelay snprintf_x strnumSize
  simp only [Nat.add_one_sub_one]
  rw [List.take_of_length_le hlen, List.append_assoc, List.take_left']
  rfl

/-- C8: for every error number `e` of a 32-bit `int`, the text the child writes to the
error pipe is not empty, the count returned by `snprintf` is below the buffer size (the
text and its NUL fit, nothing is truncated: the bytes written are the whole `%x` text),
and a parent whose `read` delivers these bytes throws `SystemError` with exactly the
number `e`. -/
theorem error_pipe_round_trip (e : Int) (hlo : -2147483648 ≤ e) (hhi : e < 2147483648)
    (w : World) (env : SpawnEnv) (hread : env.readRes = .ok (childRelay e)) :
    0 < (childRelay e).length ∧
    (snprintf_x strnumInit strnumSize e).2 < strnumSize ∧
    childRelay e = fmt_x (toUnsigned e) ∧
    (parentRead w env).2 = .error (.SystemError e) := by
  have hlen := fmt_x_length (toUnsigned e)
  have hrelay := childRelay_eq e
  refine ⟨by rw [hrelay]; exact hlen.1, ?_, hrelay, ?_⟩
  · show (fmt_x (toUnsigned e)).length < 9
    omega
  · have hne : (childRelay e).length ≠ 0 := by rw [hrelay]; omega
    unfold parentRead
    simp only [hread, hne, ne_eq, not_false_eq_true, if_true]
    have hnum : parentErrorNumber env.uninit (childRelay e) = e := by
      unfold parentErrorNumber strnumAfterRead
      rw [hrelay]
      have htail : strnumInit.drop (fmt_x (toUnsigned e)).length
          = NUL :: List.replicate (8 - (fmt_x (toUnsigned e)).length) NUL := by
        unfold strnumInit strnumSize
        rw [List.drop_replicate]
        have : 9 - (fmt_x (toUnsigned e)).length
            = (8 - (fmt_x (toUnsigned e)).length) + 1 := by omega
        rw [this, List.replicate_succ]
      rw [htail]
      unfold fmt_x
      rw [sscanf_x_digits _ (by simpa using hexDigitsRev_ne_nil 7 (toUnsigned e))
        (by intro d hd; exact hexDigitsRev_lt 8 _ d (List.mem_reverse.mp hd))]
      simp only [Option.getD_some, List.foldl_reverse]
      rw [hexDigitsRev_value 8 _ (toUnsigned_lt e)]
      have hmod : toUnsigned e % 4294967296 = toUnsigned e := by
        have := toUnsigned_lt e
        omega
      rw [hmod]
      exact toSigned_toUnsigned e hlo hhi
    rw [hnum]

/-- Witness for C8: the error number `ENOENT` (2) relayed by the child of
`run("/nonexistent")`. -/
theorem error_pipe_round_trip_witness :
    0 < (childRelay ENOENT).length ∧
    (snprintf_x strnumInit strnumSize ENOENT).2 < strnumSize ∧
    childRelay ENOENT = fmt_x (toUnsigned ENOENT) ∧
    (parentRead World.one SpawnEnv.reapedEarly).2 = .error (.SystemError ENOENT) :=
  error_pipe_round_trip ENOENT (by decide) (by decide) World.one SpawnEnv.reapedEarly rfl

end DPA.SYS
